import Mathlib

/-!
# CineTrack: a shallow embedding of the backend and recommendation heuristic

This file embeds the Express backend (`server/index.js`) and the frontend
recommendation heuristic (`src/App.tsx`) of the CineTrack movie tracker and
proves the behavioural properties of its design specification.

Modelling conventions:
* JavaScript request-body values are modelled by `JsVal` (null, undefined,
  finite numbers as `ℚ`, strings, booleans).  `Number.isFinite` holds exactly
  on numbers, `Number.isInteger` on numbers with denominator 1.
* JavaScript objects used as dictionaries (`store.users`, `watchStates`,
  `ratings`) are modelled as functional maps `κ → Option α`; a JS object has at
  most one value per key, which the functional representation makes structural.
* The persisted file is `StoreFile`: missing, malformed JSON, or parsed JSON
  whose `users`/`reviews` top-level keys may individually be absent.
* Review timestamps: the server generates `createdAt` via
  `new Date().toISOString()` and compares with `new Date(s).getTime()`; since
  the ISO round-trip is the identity on epoch milliseconds we model `createdAt`
  directly as the epoch-millisecond integer.
* Each route handler becomes a pure function from (session, body, file) to a
  result carrying the HTTP status, the file after the request, a `wrote` flag
  (whether `writeStore` ran), and the response payload.
-/

/-- JavaScript values that can appear in a parsed JSON request body field
(plus `undefined` for an absent field). Numbers are finite doubles, modelled
as rationals. -/
inductive JsVal where
  | null
  | undef
  | num (q : ℚ)
  | str (s : String)
  | bool (b : Bool)
deriving DecidableEq

/-- `Number.isFinite(v)`: true exactly on (finite) numbers; no coercion. -/
def jsIsFinite : JsVal → Bool
  | .num _ => true
  | _ => false

/-- `Number.isInteger(v)`: true exactly on integer-valued numbers. -/
def jsIsInteger : JsVal → Bool
  | .num q => q.den == 1
  | _ => false

/-- Numeric value of a `JsVal` already known to be a number (0 otherwise;
only used after a `Number.isFinite` guard). -/
def jsNum : JsVal → ℚ
  | .num q => q
  | _ => 0

/-- Watch states accepted by the status endpoint. -/
inductive WatchState where
  | watched
  | watching
  | watchlist
deriving DecidableEq

/-- OAuth profile stored in the session (`req.user`). -/
structure Profile where
  id : String
  displayName : String
  email : String
  avatar : String
deriving DecidableEq

/-- A stored review object, as built by `POST /api/reviews`.  `createdAt` is
the epoch-millisecond timestamp (see module docstring). -/
structure Review where
  id : String
  movieId : ℚ
  author : String
  rating : JsVal
  content : String
  createdAt : ℤ
  userId : String
deriving DecidableEq

/-- A per-user record in the store.  A record parsed from disk may lack the
`watchStates`, `ratings` or `profile` keys, hence the `Option`s; the handlers
repair absent maps with `?? {}`. -/
structure UserRecord where
  watchStates : Option (ℚ → Option WatchState)
  ratings : Option (ℚ → Option ℚ)
  profile : Option Profile

/-- The parsed store document: `users` keyed by user id, plus the flat,
insertion-ordered review list. -/
structure Store where
  users : String → Option UserRecord
  reviews : List Review

/-- The empty functional map (a fresh `{}`). -/
def emptyMap {κ α : Type} : κ → Option α := fun _ => none

/-- JS object key update `m[k] = v`. -/
def mapSet {κ α : Type} [DecidableEq κ] (m : κ → Option α) (k : κ) (v : α) :
    κ → Option α :=
  fun x => if x = k then some v else m x

/-- JS object key removal `delete m[k]`. -/
def mapDel {κ α : Type} [DecidableEq κ] (m : κ → Option α) (k : κ) :
    κ → Option α :=
  fun x => if x = k then none else m x

/-- The default store contents `{ users: {}, reviews: [] }`. -/
def emptyStore : Store := ⟨emptyMap, []⟩

/-- State of the persisted JSON file: absent, present but unparseable, or
parsed JSON whose top-level `users` / `reviews` keys may be absent. -/
inductive StoreFile where
  | missing
  | malformed (raw : String)
  | valid (users : Option (String → Option UserRecord))
      (reviews : Option (List Review))

/-- `ensureStore()`: create the file with `{ users: {}, reviews: [] }` when it
does not exist; leave it alone otherwise. -/
def ensureStore : StoreFile → StoreFile
  | .missing => .valid (some (emptyMap)) (some [])
  | f => f

/-- `readStore()`: ensure the file exists, then parse it; a parse failure
yields the empty default, and absent `users`/`reviews` keys are defaulted.
Returns the parsed store together with the file state after `ensureStore`. -/
def readStore (f : StoreFile) : Store × StoreFile :=
  match ensureStore f with
  | .missing => (emptyStore, .missing)
  | .malformed raw => (emptyStore, .malformed raw)
  | .valid u r => (⟨u.getD emptyMap, r.getD []⟩, .valid u r)

/-- `writeStore(data)`: serialize the whole document. -/
def writeStore (s : Store) : StoreFile :=
  .valid (some s.users) (some s.reviews)

/-- The store a file parses to, ignoring the `ensureStore` side effect. -/
def storeOf (f : StoreFile) : Store := (readStore f).1

/-- Result of `GET /api/me`: always HTTP 200; `respUser` is the `user` field
of the JSON response. -/
structure MeResult where
  file : StoreFile
  wrote : Bool
  respUser : Option Profile

/-- `GET /api/me`: with no session, answer `{ user: null }` without touching
the store; otherwise upsert the caller's record, refreshing its `profile`
from the session, and answer the identity. -/
def apiMe (user : Option Profile) (f : StoreFile) : MeResult :=
  match user with
  | none => ⟨f, false, none⟩
  | some p =>
    let rd := readStore f
    let store := rd.1
    let existing := (store.users p.id).getD ⟨some emptyMap, some emptyMap, none⟩
    let store' : Store :=
      { store with users := mapSet store.users p.id { existing with profile := some p } }
    ⟨writeStore store', true, some p⟩

/-- Result of `GET /api/user-data`; the response fields are `some` exactly on
HTTP 200. -/
structure UserDataResult where
  httpStatus : ℕ
  file : StoreFile
  wrote : Bool
  respWatchStates : Option (ℚ → Option WatchState)
  respRatings : Option (ℚ → Option ℚ)

/-- `GET /api/user-data` (behind `requireAuth`): upsert the caller's record
(with empty defaults and the session profile when absent) and answer its
`watchStates` and `ratings`, each defaulted to `{}` when the stored record
lacks the key. -/
def apiUserData (user : Option Profile) (f : StoreFile) : UserDataResult :=
  match user with
  | none => ⟨401, f, false, none, none⟩
  | some p =>
    let rd := readStore f
    let store := rd.1
    let userRecord := (store.users p.id).getD ⟨some emptyMap, some emptyMap, some p⟩
    let store' : Store := { store with users := mapSet store.users p.id userRecord }
    ⟨200, writeStore store', true,
      some (userRecord.watchStates.getD emptyMap),
      some (userRecord.ratings.getD emptyMap)⟩

/-- Descending order on review creation time: the comparator
`(a, b) => new Date(b.createdAt).getTime() - new Date(a.createdAt).getTime()`
places `a` before `b` when `b.createdAt ≤ a.createdAt`.  JavaScript's
`Array.prototype.sort` is stable, as is insertion sort. -/
def newestFirst (a b : Review) : Prop := b.createdAt ≤ a.createdAt

instance : DecidableRel newestFirst := fun a b => by
  unfold newestFirst; infer_instance

/-- `GET /api/reviews/:movieId` (public, no `requireAuth`): the stored reviews
for the requested movie id, newest first.  The session argument is unused by
the handler. -/
def apiGetReviews (user : Option Profile) (movieId : ℚ) (f : StoreFile) :
    List Review :=
  let _ := user
  let store := (readStore f).1
  (store.reviews.filter (fun review => review.movieId == movieId)).insertionSort
    newestFirst

/-- Result of `PUT /api/status`; `respWatchStates` is the map answered
on HTTP 200. -/
structure StatusResult where
  httpStatus : ℕ
  file : StoreFile
  wrote : Bool
  respWatchStates : Option (ℚ → Option WatchState)

/-- The guard `status !== 'watched' && status !== 'watching' &&
status !== 'watchlist' && status !== null` of `PUT /api/status`, together
with the decoded status: `none` when the request is rejected. -/
def parseStatus : JsVal → Option (Option WatchState)
  | .str "watched" => some (some .watched)
  | .str "watching" => some (some .watching)
  | .str "watchlist" => some (some .watchlist)
  | .null => some none
  | _ => none

/-- `PUT /api/status` (behind `requireAuth`): validate `movieId` and `status`,
then upsert the caller's record and set (or, for null, delete) the
`watchStates` entry for the movie. -/
def apiPutStatus (user : Option Profile) (movieId status : JsVal)
    (f : StoreFile) : StatusResult :=
  match user with
  | none => ⟨401, f, false, none⟩
  | some p =>
    if !jsIsFinite movieId then ⟨400, f, false, none⟩
    else
      match parseStatus status with
      | none => ⟨400, f, false, none⟩
      | some st =>
        let rd := readStore f
        let store := rd.1
        let userRecord := (store.users p.id).getD ⟨some emptyMap, some emptyMap, some p⟩
        let ws := userRecord.watchStates.getD emptyMap
        let ws' := match st with
          | none => mapDel ws (jsNum movieId)
          | some v => mapSet ws (jsNum movieId) v
        let userRecord' := { userRecord with watchStates := some ws' }
        let store' : Store := { store with users := mapSet store.users p.id userRecord' }
        ⟨200, writeStore store', true, some ws'⟩

/-- Result of `PUT /api/rating`; `respRatings` is the map answered
on HTTP 200. -/
structure RatingResult where
  httpStatus : ℕ
  file : StoreFile
  wrote : Bool
  respRatings : Option (ℚ → Option ℚ)

/-- The guard `rating !== null && (!Number.isInteger(rating) || rating < 1 ||
rating > 5)` of the rating endpoints (`true` = reject with 400). -/
def ratingInvalid : JsVal → Bool
  | .null => false
  | .num q => !(q.den == 1) || decide (q < 1) || decide (q > 5)
  | _ => true

/-- `PUT /api/rating` (behind `requireAuth`): validate `movieId` and `rating`,
then upsert the caller's record and set (or, for null, delete) the `ratings`
entry for the movie. -/
def apiPutRating (user : Option Profile) (movieId rating : JsVal)
    (f : StoreFile) : RatingResult :=
  match user with
  | none => ⟨401, f, false, none⟩
  | some p =>
    if !jsIsFinite movieId then ⟨400, f, false, none⟩
    else if ratingInvalid rating then ⟨400, f, false, none⟩
    else
      let rd := readStore f
      let store := rd.1
      let userRecord := (store.users p.id).getD ⟨some emptyMap, some emptyMap, some p⟩
      let rs := userRecord.ratings.getD emptyMap
      let rs' := match rating with
        | .null => mapDel rs (jsNum movieId)
        | _ => mapSet rs (jsNum movieId) (jsNum rating)
      let userRecord' := { userRecord with ratings := some rs' }
      let store' : Store := { store with users := mapSet store.users p.id userRecord' }
      ⟨200, writeStore store', true, some rs'⟩

/-- JavaScript `String.prototype.trim`: strip leading and trailing
whitespace.  (Defined over the character list so that the kernel can
evaluate it.) -/
def jsTrim (s : String) : String :=
  ⟨((s.data.dropWhile Char.isWhitespace).reverse.dropWhile Char.isWhitespace).reverse⟩

/-- Result of `POST /api/reviews`; `respReview` is the created review
answered on HTTP 201. -/
structure ReviewResult where
  httpStatus : ℕ
  file : StoreFile
  wrote : Bool
  respReview : Option Review

/-- `POST /api/reviews` (behind `requireAuth`): validate `movieId`, `content`
(a string with non-empty trim) and `rating` (null or integer 1–5), build the
review stamped with the current time `now`, and prepend it to the stored
list. -/
def apiPostReviews (user : Option Profile) (movieId content rating : JsVal)
    (now : ℤ) (f : StoreFile) : ReviewResult :=
  match user with
  | none => ⟨401, f, false, none⟩
  | some p =>
    if !jsIsFinite movieId then ⟨400, f, false, none⟩
    else
      match content with
      | .str s =>
        if jsTrim s = "" then ⟨400, f, false, none⟩
        else if ratingInvalid rating then ⟨400, f, false, none⟩
        else
          let store := (readStore f).1
          let review : Review :=
            ⟨toString (jsNum movieId) ++ "-" ++ toString now, jsNum movieId,
              p.displayName, rating, jsTrim s, now, p.id⟩
          let store' : Store := { store with reviews := review :: store.reviews }
          ⟨201, writeStore store', true, some review⟩
      | _ => ⟨400, f, false, none⟩

/-!
## Frontend: the recommendation heuristic (`loadRecommendations` in App.tsx)

Movie and genre ids coming from the catalog are non-negative integers, so the
keys of the `reduce` accumulator object are JS array indices and
`Object.entries` enumerates them in ascending numeric order; we model the
accumulator as a weight function over `ℕ` and recover the entries as the
ascending enumeration of the keys that received weight (every assignment adds
at least 1, so a key is present iff its weight is positive).
-/

/-- The fields of a catalog movie used by the heuristic. -/
structure FMovie where
  id : ℕ
  genre_ids : List ℕ
deriving DecidableEq

/-- One step of the inner loop
`acc[genreId] = (acc[genreId] ?? 0) + w` of the genre `reduce`. -/
def addGenre (w : ℕ) (acc : ℕ → ℕ) (genreId : ℕ) : ℕ → ℕ :=
  fun g => if g = genreId then acc g + w else acc g

/-- The body of the `movies.reduce` of `loadRecommendations`: skip a movie
that is neither watched, watchlisted nor rated ≥ 4, otherwise add its weight
(2 when rated ≥ 4, else 1) to each of its genre tags. -/
def genreReducer (watchStates : ℕ → Option WatchState) (ratings : ℕ → Option ℚ)
    (acc : ℕ → ℕ) (movie : FMovie) : ℕ → ℕ :=
  let status := watchStates movie.id
  let rating := (ratings movie.id).getD 0
  let isWeighted := status == some .watched || status == some .watchlist ||
    decide (rating ≥ 4)
  if isWeighted then
    movie.genre_ids.foldl (addGenre (if rating ≥ 4 then 2 else 1)) acc
  else acc

/-- The `movies.reduce` accumulator of `loadRecommendations`: per-genre
accumulated weight. -/
def genreWeights (movies : List FMovie) (watchStates : ℕ → Option WatchState)
    (ratings : ℕ → Option ℚ) : ℕ → ℕ :=
  movies.foldl (genreReducer watchStates ratings) (fun _ => 0)

/-- `Object.entries` of the accumulator: the keys that received weight, in
ascending numeric order, paired with their weights. -/
def genreEntries (movies : List FMovie) (watchStates : ℕ → Option WatchState)
    (ratings : ℕ → Option ℚ) : List (ℕ × ℕ) :=
  (((movies.map FMovie.genre_ids).flatten.dedup).insertionSort (· ≤ ·)).filterMap
    (fun g => if genreWeights movies watchStates ratings g > 0 then
      some (g, genreWeights movies watchStates ratings g) else none)

/-- The entry comparator `(a, b) => b[1] - a[1]`: descending accumulated
weight (stable). -/
def heavierFirst (a b : ℕ × ℕ) : Prop := b.2 ≤ a.2

instance : DecidableRel heavierFirst := fun a b => by
  unfold heavierFirst; infer_instance

/-- `rankedGenres`: the top two genre ids by accumulated weight. -/
def rankedGenres (movies : List FMovie) (watchStates : ℕ → Option WatchState)
    (ratings : ℕ → Option ℚ) : List ℕ :=
  (((genreEntries movies watchStates ratings).insertionSort heavierFirst).take 2).map
    Prod.fst

/-- Outcome of the `/discover/movie` recommendation query: the result list,
or a thrown fetch error. -/
inductive CatalogResult where
  | ok (results : List FMovie)
  | failed

/-- `loadRecommendations`: rank genres; without credentials or with no ranked
genre, fall back to untracked-or-watchlisted browse movies (first 8); with a
successful catalog query, recommend its untracked results (first 8); when the
query throws, fall back to the first 8 browse movies. -/
def loadRecommendations (hasCreds : Bool) (catalog : CatalogResult)
    (movies : List FMovie) (watchStates : ℕ → Option WatchState)
    (ratings : ℕ → Option ℚ) : List FMovie :=
  let ranked := rankedGenres movies watchStates ratings
  if !hasCreds || ranked.isEmpty then
    (movies.filter (fun movie =>
      (watchStates movie.id).isNone || watchStates movie.id == some .watchlist)).take 8
  else
    match catalog with
    | .ok results =>
      (results.filter (fun movie => (watchStates movie.id).isNone)).take 8
    | .failed => movies.take 8

/-- Modelled from the spec (§4.3): the per-movie weight in the claim's own
words — "weight 2 if its local rating is ≥ 4, weight 1 if it is marked
watched or watchlisted (and not already weighted), and 0 otherwise".  Used
only to compare the specification's description against `genreWeights`. -/
def specMovieWeight (watchStates : ℕ → Option WatchState)
    (ratings : ℕ → Option ℚ) (movie : FMovie) : ℕ :=
  if (ratings movie.id).getD 0 ≥ 4 then 2
  else if watchStates movie.id = some .watched ∨ watchStates movie.id = some .watchlist
    then 1
  else 0

/-!
## Helper lemmas
-/

theorem mapSet_same {κ α : Type} [DecidableEq κ] (m : κ → Option α) (k : κ)
    (v : α) : mapSet m k v k = some v := by
  simp [mapSet]

theorem mapSet_other {κ α : Type} [DecidableEq κ] (m : κ → Option α) {k x : κ}
    (v : α) (h : x ≠ k) : mapSet m k v x = m x := by
  simp [mapSet, h]

theorem mapDel_same {κ α : Type} [DecidableEq κ] (m : κ → Option α) (k : κ) :
    mapDel m k k = none := by
  simp [mapDel]

theorem mapDel_other {κ α : Type} [DecidableEq κ] (m : κ → Option α) {k x : κ}
    (h : x ≠ k) : mapDel m k x = m x := by
  simp [mapDel, h]

/-- Reading back a freshly written store returns it unchanged. -/
theorem readStore_writeStore (s : Store) : readStore (writeStore s) = (s, writeStore s) := by
  simp [readStore, writeStore, ensureStore]

theorem storeOf_writeStore (s : Store) : storeOf (writeStore s) = s := by
  simp [storeOf, readStore_writeStore]

instance : IsTotal Review newestFirst :=
  ⟨fun a b => le_total b.createdAt a.createdAt⟩

instance : IsTrans Review newestFirst :=
  ⟨fun _ _ _ hab hbc => le_trans hbc hab⟩

/-- Concrete session profile used by the witnesses. -/
def pAda : Profile := ⟨"u1", "Ada", "ada@example.com", ""⟩

/-- Concrete empty-but-present store file used by the witnesses. -/
def fEmpty : StoreFile := .valid (some emptyMap) (some [])

/-!
## Claims
-/

/-- C1: for every authenticated `PUT /api/rating` with a numeric `movieId`
and a `rating` that is non-null and not an integer in 1–5, the endpoint
answers 400 and the persisted store file is left exactly as it was (no
read-modify-write occurs). -/
theorem invalid_rating_rejected_unchanged (p : Profile) (movieId rating : JsVal)
    (f : StoreFile) (hm : jsIsFinite movieId = true)
    (hnull : rating ≠ JsVal.null)
    (hval : ∀ q : ℚ, rating = JsVal.num q → ¬(q.den = 1 ∧ 1 ≤ q ∧ q ≤ 5)) :
    (apiPutRating (some p) movieId rating f).httpStatus = 400 ∧
    (apiPutRating (some p) movieId rating f).file = f ∧
    (apiPutRating (some p) movieId rating f).wrote = false := by
  have hinv : ratingInvalid rating = true := by
    cases rating with
    | null => exact absurd rfl hnull
    | num q =>
      have h := hval q rfl
      rcases not_and_or.mp h with hd | h2
      · simp [ratingInvalid, hd]
      · rcases not_and_or.mp h2 with h1 | h5
        · simp [ratingInvalid, not_le.mp h1]
        · simp [ratingInvalid, gt_iff_lt, not_le.mp h5]
    | undef => rfl
    | str s => rfl
    | bool b => rfl
  refine ⟨?_, ?_, ?_⟩ <;> simp [apiPutRating, hm, hinv]

/-- C1 witness: rating 6 for movie 7 is rejected with 400 and the file is
untouched. -/
theorem invalid_rating_rejected_unchanged_witness :
    (apiPutRating (some pAda) (.num 7) (.num 6) fEmpty).httpStatus = 400 ∧
    (apiPutRating (some pAda) (.num 7) (.num 6) fEmpty).file = fEmpty ∧
    (apiPutRating (some pAda) (.num 7) (.num 6) fEmpty).wrote = false :=
  invalid_rating_rejected_unchanged pAda (.num 7) (.num 6) fEmpty rfl
    (by decide)
    (by rintro q hq; injection hq with hq; subst hq; decide)

/-- C3: `GET /api/reviews/:movieId` answers exactly the stored reviews whose
`movieId` equals the numeric path parameter, sorted newest-first by creation
timestamp, and the result does not depend on the session (no authentication
required). -/
theorem reviews_filtered_sorted_public (user user' : Option Profile)
    (movieId : ℚ) (f : StoreFile) :
    (apiGetReviews user movieId f).Perm
      ((storeOf f).reviews.filter (fun review => review.movieId == movieId)) ∧
    List.Sorted newestFirst (apiGetReviews user movieId f) ∧
    apiGetReviews user movieId f = apiGetReviews user' movieId f := by
  refine ⟨List.perm_insertionSort newestFirst _, ?_, rfl⟩
  exact List.sorted_insertionSort newestFirst _

/-- C4: without an authenticated session, `PUT /api/status`, `PUT /api/rating`
and `POST /api/reviews` each answer 401 with the store file untouched (not
read-modify-written, not created). -/
theorem unauthenticated_rejected_no_mutation (movieId status rating content : JsVal)
    (now : ℤ) (f : StoreFile) :
    apiPutStatus none movieId status f = ⟨401, f, false, none⟩ ∧
    apiPutRating none movieId rating f = ⟨401, f, false, none⟩ ∧
    apiPostReviews none movieId content rating now f = ⟨401, f, false, none⟩ :=
  ⟨rfl, rfl, rfl⟩

/-- C8: `readStore` is total at its interface: a missing file is created with
the empty defaults `{users: {}, reviews: []}` and read back as the empty
store; malformed JSON yields the empty store without failing; a parsed file
yields its `users`/`reviews`, each defaulted when the key is absent. -/
theorem readStore_total_defaults (f : StoreFile) :
    (f = .missing →
      readStore f = (emptyStore, .valid (some emptyMap) (some []))) ∧
    (∀ raw, f = .malformed raw →
      (readStore f).1 = emptyStore ∧ (readStore f).2 = f) ∧
    (∀ u r, f = .valid u r →
      (readStore f).1 = ⟨u.getD emptyMap, r.getD []⟩ ∧ (readStore f).2 = f) := by
  refine ⟨?_, ?_, ?_⟩
  · rintro rfl; rfl
  · rintro raw rfl; exact ⟨rfl, rfl⟩
  · rintro u r rfl; exact ⟨rfl, rfl⟩

/-- C8 witness: reading a malformed file yields the empty store and leaves
the file as it was. -/
theorem readStore_total_defaults_witness :
    (readStore (.malformed "not json")).1 = emptyStore ∧
    (readStore (.malformed "not json")).2 = .malformed "not json" :=
  (readStore_total_defaults (.malformed "not json")).2.1 "not json" rfl

/-- The request-body encoding of a valid (non-null) watch status. -/
def statusVal : WatchState → JsVal
  | .watched => .str "watched"
  | .watching => .str "watching"
  | .watchlist => .str "watchlist"

theorem parseStatus_statusVal (st : WatchState) :
    parseStatus (statusVal st) = some (some st) := by
  cases st <;> rfl

/-- C2: for an authenticated user and any status in
{watched, watching, watchlist}, `PUT /api/status` followed by
`GET /api/user-data` answers a `watchStates` mapping carrying that movie id
with that status; `status = null` removes the mapping, so the subsequent
`GET /api/user-data` has no entry for the movie. -/
theorem status_then_user_data_roundtrip (p : Profile) (movieId status : JsVal)
    (f : StoreFile) (hm : jsIsFinite movieId = true) :
    (∀ st : WatchState, status = statusVal st →
      (apiUserData (some p)
          (apiPutStatus (some p) movieId status f).file).respWatchStates.getD emptyMap
        (jsNum movieId) = some st) ∧
    (status = JsVal.null →
      (apiUserData (some p)
          (apiPutStatus (some p) movieId status f).file).respWatchStates.getD emptyMap
        (jsNum movieId) = none) := by
  constructor
  · rintro st rfl
    simp [apiPutStatus, hm, parseStatus_statusVal, apiUserData, readStore_writeStore,
      mapSet_same]
  · rintro rfl
    simp [apiPutStatus, hm, parseStatus, apiUserData, readStore_writeStore,
      mapSet_same, mapDel_same]

/-- C2 witness: setting movie 7 to `watching` and reading the user data
back answers `watching` for movie 7. -/
theorem status_then_user_data_roundtrip_witness :
    (apiUserData (some pAda)
        (apiPutStatus (some pAda) (.num 7) (.str "watching") fEmpty).file).respWatchStates.getD
      emptyMap (jsNum (.num 7)) = some WatchState.watching :=
  (status_then_user_data_roundtrip pAda (.num 7) (.str "watching") fEmpty rfl).1
    .watching rfl

/-- If the stored review list starts with a review for the requested movie
whose timestamp dominates the rest, that review heads the (stable, descending)
sorted answer of `GET /api/reviews/:movieId`. -/
theorem apiGetReviews_head_of_newest (user : Option Profile) (m : ℚ)
    (f : StoreFile) (rv : Review) (rest : List Review)
    (hrev : (storeOf f).reviews = rv :: rest)
    (hmid : rv.movieId = m)
    (hle : ∀ b ∈ rest, b.createdAt ≤ rv.createdAt) :
    (apiGetReviews user m f).head? = some rv := by
  have h1 : apiGetReviews user m f =
      (((storeOf f).reviews.filter (fun review => review.movieId == m)).insertionSort
        newestFirst) := rfl
  rw [h1, hrev, List.filter_cons_of_pos (by simp [hmid]),
    List.insertionSort_cons]
  · rfl
  · intro b hb
    exact hle b (List.mem_of_mem_filter hb)

/-- C5: an authenticated `POST /api/reviews` with numeric movie id, string
content with non-empty trim, and rating null or an integer in 1–5 answers 201
with a review authored by the caller's display name carrying the trimmed
content, prepended to the stored list, so that (while the server clock has
not run backwards) a subsequent `GET /api/reviews` for the movie lists it
first; non-string or trim-empty content is rejected with 400. -/
theorem post_review_created_first (p : Profile) (movieId content rating : JsVal)
    (now : ℤ) (f : StoreFile) (hm : jsIsFinite movieId = true) :
    (((∀ s : String, content ≠ .str s) ∨ (∃ s, content = .str s ∧ jsTrim s = "")) →
      (apiPostReviews (some p) movieId content rating now f).httpStatus = 400) ∧
    (∀ s : String, content = .str s → jsTrim s ≠ "" →
      (rating = .null ∨ ∃ q : ℚ, rating = .num q ∧ q.den = 1 ∧ 1 ≤ q ∧ q ≤ 5) →
      (∀ rv ∈ (storeOf f).reviews, rv.createdAt ≤ now) →
      ∀ user' : Option Profile,
      (apiPostReviews (some p) movieId content rating now f).httpStatus = 201 ∧
      ∃ rv : Review,
        (apiPostReviews (some p) movieId content rating now f).respReview = some rv ∧
        rv.author = p.displayName ∧ rv.content = jsTrim s ∧
        (storeOf (apiPostReviews (some p) movieId content rating now f).file).reviews =
          rv :: (storeOf f).reviews ∧
        (apiGetReviews user' (jsNum movieId)
          (apiPostReviews (some p) movieId content rating now f).file).head? = some rv) := by
  constructor
  · rintro (hns | ⟨s, rfl, hs⟩)
    · cases content with
      | str s => exact absurd rfl (hns s)
      | null => simp [apiPostReviews, hm]
      | undef => simp [apiPostReviews, hm]
      | num q => simp [apiPostReviews, hm]
      | bool b => simp [apiPostReviews, hm]
    · simp [apiPostReviews, hm, hs]
  · rintro s rfl hs hr hclock user'
    have hrv : ratingInvalid rating = false := by
      rcases hr with rfl | ⟨q, rfl, hden, h1, h5⟩
      · rfl
      · simp [ratingInvalid, hden, not_lt.mpr h1, not_lt.mpr h5]
    have hprep : (storeOf (apiPostReviews (some p) movieId (.str s) rating now f).file).reviews =
        (⟨toString (jsNum movieId) ++ "-" ++ toString now, jsNum movieId,
          p.displayName, rating, jsTrim s, now, p.id⟩ : Review) :: (storeOf f).reviews := by
      simp [apiPostReviews, hm, hs, hrv, storeOf, readStore_writeStore]
    refine ⟨by simp [apiPostReviews, hm, hs, hrv], ?_⟩
    refine ⟨⟨toString (jsNum movieId) ++ "-" ++ toString now, jsNum movieId,
      p.displayName, rating, jsTrim s, now, p.id⟩, ?_, rfl, rfl, hprep, ?_⟩
    · simp [apiPostReviews, hm, hs, hrv]
    · exact apiGetReviews_head_of_newest user' (jsNum movieId) _ _ _ hprep rfl hclock

/-- C5 witness: posting "Great film" with rating 4 for movie 9 answers 201
with the caller's display name as author, and the review heads the
subsequent public listing. -/
theorem post_review_created_first_witness :
    (apiPostReviews (some pAda) (.num 9) (.str " Great film ") (.num 4) 100 fEmpty).httpStatus
        = 201 ∧
    ((apiPostReviews (some pAda) (.num 9) (.str " Great film ") (.num 4) 100
        fEmpty).respReview.map Review.author) = some "Ada" ∧
    ((apiPostReviews (some pAda) (.num 9) (.str " Great film ") (.num 4) 100
        fEmpty).respReview.map Review.content) = some "Great film" ∧
    (apiGetReviews none (jsNum (.num 9))
        (apiPostReviews (some pAda) (.num 9) (.str " Great film ") (.num 4) 100
          fEmpty).file).head? =
      (apiPostReviews (some pAda) (.num 9) (.str " Great film ") (.num 4) 100
        fEmpty).respReview := by
  obtain ⟨h201, rv, hresp, hauthor, hcont, _, hhead⟩ :=
    (post_review_created_first pAda (.num 9) (.str " Great film ") (.num 4) 100 fEmpty
        rfl).2 " Great film " rfl (by decide)
      (Or.inr ⟨4, rfl, by decide⟩) (by simp [storeOf, readStore, ensureStore, fEmpty]) none
  refine ⟨h201, ?_, ?_, ?_⟩
  · rw [hresp]
    simp [hauthor, pAda]
  · rw [hresp]
    simp [hcont, show jsTrim " Great film " = "Great film" from by decide]
  · rw [hhead, hresp]

/-- C9: each of `GET /api/me`, `GET /api/user-data`, `PUT /api/status` and
`PUT /api/rating` upserts the record at the caller's user id key — the
resulting store has a record there, every other user id is untouched, and a
previously absent record is seeded from the empty defaults
`{watchStates: {}, ratings: {}}` (with the endpoint's own single-entry update
applied for the PUT routes) — so the store keeps exactly one record per
authenticated user id. -/
theorem one_record_per_user_upsert (p : Profile) (movieId status rating : JsVal)
    (f : StoreFile) (hm : jsIsFinite movieId = true) :
    (((storeOf (apiMe (some p) f).file).users p.id).isSome = true ∧
      (∀ v, v ≠ p.id →
        (storeOf (apiMe (some p) f).file).users v = (storeOf f).users v) ∧
      ((storeOf f).users p.id = none →
        (storeOf (apiMe (some p) f).file).users p.id =
          some ⟨some emptyMap, some emptyMap, some p⟩)) ∧
    (((storeOf (apiUserData (some p) f).file).users p.id).isSome = true ∧
      (∀ v, v ≠ p.id →
        (storeOf (apiUserData (some p) f).file).users v = (storeOf f).users v) ∧
      ((storeOf f).users p.id = none →
        (storeOf (apiUserData (some p) f).file).users p.id =
          some ⟨some emptyMap, some emptyMap, some p⟩)) ∧
    (∀ st, parseStatus status = some st →
      ((storeOf (apiPutStatus (some p) movieId status f).file).users p.id).isSome = true ∧
      (∀ v, v ≠ p.id →
        (storeOf (apiPutStatus (some p) movieId status f).file).users v =
          (storeOf f).users v) ∧
      ((storeOf f).users p.id = none →
        (storeOf (apiPutStatus (some p) movieId status f).file).users p.id =
          some ⟨some (match st with
            | none => mapDel emptyMap (jsNum movieId)
            | some v => mapSet emptyMap (jsNum movieId) v), some emptyMap, some p⟩)) ∧
    (ratingInvalid rating = false →
      ((storeOf (apiPutRating (some p) movieId rating f).file).users p.id).isSome = true ∧
      (∀ v, v ≠ p.id →
        (storeOf (apiPutRating (some p) movieId rating f).file).users v =
          (storeOf f).users v) ∧
      ((storeOf f).users p.id = none →
        (storeOf (apiPutRating (some p) movieId rating f).file).users p.id =
          some ⟨some emptyMap, some (match rating with
            | .null => mapDel emptyMap (jsNum movieId)
            | _ => mapSet emptyMap (jsNum movieId) (jsNum rating)), some p⟩)) := by
  refine ⟨⟨?_, ?_, ?_⟩, ⟨?_, ?_, ?_⟩, ?_, ?_⟩
  · simp [apiMe, storeOf, readStore_writeStore, mapSet]
  · intro v hv
    simp [apiMe, storeOf, readStore_writeStore, mapSet, hv]
  · intro habs
    have habs' : (readStore f).1.users p.id = none := habs
    simp [apiMe, storeOf, readStore_writeStore, mapSet, habs']
  · simp [apiUserData, storeOf, readStore_writeStore, mapSet]
  · intro v hv
    simp [apiUserData, storeOf, readStore_writeStore, mapSet, hv]
  · intro habs
    have habs' : (readStore f).1.users p.id = none := habs
    simp [apiUserData, storeOf, readStore_writeStore, mapSet, habs']
  · rintro st hst
    refine ⟨?_, ?_, ?_⟩
    · simp [apiPutStatus, hm, hst, storeOf, readStore_writeStore, mapSet]
    · intro v hv
      simp [apiPutStatus, hm, hst, storeOf, readStore_writeStore, mapSet, hv]
    · intro habs
      have habs' : (readStore f).1.users p.id = none := habs
      rcases st with _ | v <;>
        simp [apiPutStatus, hm, hst, storeOf, readStore_writeStore, mapSet, habs']
  · intro hr
    refine ⟨?_, ?_, ?_⟩
    · simp [apiPutRating, hm, hr, storeOf, readStore_writeStore, mapSet]
    · intro v hv
      simp [apiPutRating, hm, hr, storeOf, readStore_writeStore, mapSet, hv]
    · intro habs
      have habs' : (readStore f).1.users p.id = none := habs
      cases rating <;>
        simp [apiPutRating, hm, hr, storeOf, readStore_writeStore, mapSet, habs']

/-- C9 witness: on the empty store, `PUT /api/status watching` for movie 7
creates exactly the caller's record, seeded from the empty defaults with the
single watch-state entry. -/
theorem one_record_per_user_upsert_witness :
    (storeOf (apiPutStatus (some pAda) (.num 7) (.str "watching") fEmpty).file).users
        pAda.id =
      some ⟨some (mapSet emptyMap (jsNum (.num 7)) WatchState.watching),
        some emptyMap, some pAda⟩ :=
  ((one_record_per_user_upsert pAda (.num 7) (.str "watching") .null fEmpty rfl).2.2.1
    (some .watching) rfl).2.2 rfl

/-- C10 counterexample: a successful authenticated `PUT /api/rating` by a
user with no stored record does not only touch the ratings entry — it also
creates the record with the caller's profile, so "u's watchStates and profile
are unchanged in the written store" fails: before the call the store has no
record (hence no profile) for the user, afterwards it stores the caller's
profile. -/
theorem put_rating_fresh_profile_counterexample :
    (apiPutRating (some pAda) (.num 7) (.num 4) fEmpty).httpStatus = 200 ∧
    (storeOf fEmpty).users pAda.id = none ∧
    ((storeOf (apiPutRating (some pAda) (.num 7) (.num 4) fEmpty).file).users
        pAda.id).map UserRecord.profile = some (some pAda) := by
  refine ⟨rfl, rfl, ?_⟩
  rfl

/-- C10 (amended): a successful authenticated `PUT /api/rating` for movie m
leaves the review list and every other user's record unchanged; when the
caller's record already exists it keeps its `watchStates` and `profile`
fields and changes the ratings mapping at most at m; when it is absent, the
record is created with empty `watchStates`, the caller's profile, and the
empty ratings mapping updated only at m.  Symmetrically for
`PUT /api/status`, with `watchStates` and `ratings` exchanged. -/
theorem put_endpoints_frame (p : Profile) (movieId status rating : JsVal)
    (f : StoreFile) (hm : jsIsFinite movieId = true) :
    (ratingInvalid rating = false →
      (storeOf (apiPutRating (some p) movieId rating f).file).reviews =
        (storeOf f).reviews ∧
      (∀ v, v ≠ p.id →
        (storeOf (apiPutRating (some p) movieId rating f).file).users v =
          (storeOf f).users v) ∧
      (∀ rec, (storeOf f).users p.id = some rec →
        ((storeOf (apiPutRating (some p) movieId rating f).file).users p.id).map
            UserRecord.watchStates = some rec.watchStates ∧
        ((storeOf (apiPutRating (some p) movieId rating f).file).users p.id).map
            UserRecord.profile = some rec.profile ∧
        (∀ k, k ≠ jsNum movieId →
          (((storeOf (apiPutRating (some p) movieId rating f).file).users p.id).bind
              UserRecord.ratings).getD emptyMap k = (rec.ratings.getD emptyMap) k)) ∧
      ((storeOf f).users p.id = none →
        (storeOf (apiPutRating (some p) movieId rating f).file).users p.id =
          some ⟨some emptyMap, some (match rating with
            | .null => mapDel emptyMap (jsNum movieId)
            | _ => mapSet emptyMap (jsNum movieId) (jsNum rating)), some p⟩)) ∧
    (∀ st, parseStatus status = some st →
      (storeOf (apiPutStatus (some p) movieId status f).file).reviews =
        (storeOf f).reviews ∧
      (∀ v, v ≠ p.id →
        (storeOf (apiPutStatus (some p) movieId status f).file).users v =
          (storeOf f).users v) ∧
      (∀ rec, (storeOf f).users p.id = some rec →
        ((storeOf (apiPutStatus (some p) movieId status f).file).users p.id).map
            UserRecord.ratings = some rec.ratings ∧
        ((storeOf (apiPutStatus (some p) movieId status f).file).users p.id).map
            UserRecord.profile = some rec.profile ∧
        (∀ k, k ≠ jsNum movieId →
          (((storeOf (apiPutStatus (some p) movieId status f).file).users p.id).bind
              UserRecord.watchStates).getD emptyMap k =
            (rec.watchStates.getD emptyMap) k)) ∧
      ((storeOf f).users p.id = none →
        (storeOf (apiPutStatus (some p) movieId status f).file).users p.id =
          some ⟨some (match st with
            | none => mapDel emptyMap (jsNum movieId)
            | some v => mapSet emptyMap (jsNum movieId) v), some emptyMap, some p⟩)) := by
  constructor
  · intro hr
    refine ⟨?_, ?_, ?_, ?_⟩
    · simp [apiPutRating, hm, hr, storeOf, readStore_writeStore]
    · intro v hv
      simp [apiPutRating, hm, hr, storeOf, readStore_writeStore, mapSet, hv]
    · intro rec hrec
      have hrec' : (readStore f).1.users p.id = some rec := hrec
      refine ⟨?_, ?_, ?_⟩
      · simp [apiPutRating, hm, hr, storeOf, readStore_writeStore, mapSet, hrec']
      · simp [apiPutRating, hm, hr, storeOf, readStore_writeStore, mapSet, hrec']
      · intro k hk
        cases rating <;>
          simp [apiPutRating, hm, hr, storeOf, readStore_writeStore, mapSet, mapDel,
            hrec', hk]
    · intro habs
      have habs' : (readStore f).1.users p.id = none := habs
      cases rating <;>
        simp [apiPutRating, hm, hr, storeOf, readStore_writeStore, mapSet, habs']
  · rintro st hst
    refine ⟨?_, ?_, ?_, ?_⟩
    · simp [apiPutStatus, hm, hst, storeOf, readStore_writeStore]
    · intro v hv
      simp [apiPutStatus, hm, hst, storeOf, readStore_writeStore, mapSet, hv]
    · intro rec hrec
      have hrec' : (readStore f).1.users p.id = some rec := hrec
      refine ⟨?_, ?_, ?_⟩
      · simp [apiPutStatus, hm, hst, storeOf, readStore_writeStore, mapSet, hrec']
      · simp [apiPutStatus, hm, hst, storeOf, readStore_writeStore, mapSet, hrec']
      · intro k hk
        rcases st with _ | v <;>
          simp [apiPutStatus, hm, hst, storeOf, readStore_writeStore, mapSet, mapDel,
            hrec', hk]
    · intro habs
      have habs' : (readStore f).1.users p.id = none := habs
      rcases st with _ | v <;>
        simp [apiPutStatus, hm, hst, storeOf, readStore_writeStore, mapSet, habs']

/-- C10 witness: rating movie 7 as a fresh user leaves the (empty) review
list unchanged and creates the record with empty watch states and the single
rating entry. -/
theorem put_endpoints_frame_witness :
    (storeOf (apiPutRating (some pAda) (.num 7) (.num 4) fEmpty).file).reviews =
      (storeOf fEmpty).reviews ∧
    (storeOf (apiPutRating (some pAda) (.num 7) (.num 4) fEmpty).file).users pAda.id =
      some ⟨some emptyMap, some (mapSet emptyMap (jsNum (.num 7)) (jsNum (.num 4))),
        some pAda⟩ := by
  have h := (put_endpoints_frame pAda (.num 7) (.str "watching") (.num 4) fEmpty rfl).1
    (by decide)
  exact ⟨h.1, h.2.2.2 rfl⟩

theorem foldl_addGenre (w g : ℕ) (l : List ℕ) :
    ∀ acc : ℕ → ℕ, (l.foldl (addGenre w) acc) g = acc g + l.count g * w := by
  induction l with
  | nil => intro acc; simp
  | cons x l ih =>
    intro acc
    rw [List.foldl_cons, ih]
    by_cases hx : g = x
    · subst hx
      simp [addGenre, List.count_cons, Nat.add_mul]
      omega
    · simp [addGenre, hx, List.count_cons, Ne.symm hx]

/-- One reducer step adds, at each genre g, the movie's tag multiplicity of g
times the specification's per-movie weight. -/
theorem genreReducer_apply (ws : ℕ → Option WatchState) (rs : ℕ → Option ℚ)
    (acc : ℕ → ℕ) (m : FMovie) (g : ℕ) :
    (genreReducer ws rs acc m) g =
      acc g + m.genre_ids.count g * specMovieWeight ws rs m := by
  by_cases h4 : (rs m.id).getD 0 ≥ 4
  · simp [genreReducer, specMovieWeight, h4, foldl_addGenre]
  · by_cases hw : ws m.id = some .watched ∨ ws m.id = some .watchlist
    · rcases hw with hw | hw <;>
        simp [genreReducer, specMovieWeight, h4, hw, foldl_addGenre]
    · push_neg at hw
      simp [genreReducer, specMovieWeight, h4, hw.1, hw.2]

theorem foldl_genreReducer (ws : ℕ → Option WatchState) (rs : ℕ → Option ℚ)
    (g : ℕ) (movies : List FMovie) :
    ∀ acc : ℕ → ℕ, (movies.foldl (genreReducer ws rs) acc) g =
      acc g + (movies.map (fun m => m.genre_ids.count g * specMovieWeight ws rs m)).sum := by
  induction movies with
  | nil => intro acc; simp
  | cons m l ih =>
    intro acc
    rw [List.foldl_cons, ih, genreReducer_apply]
    simp [Nat.add_assoc]

/-- The browse set of the specification's example: two movies rated 5 tagged
Action (genre 28) and one watchlisted movie tagged Drama (genre 18). -/
def exMoviesSpec : List FMovie := [⟨1, [28]⟩, ⟨2, [28]⟩, ⟨3, [18]⟩]

def exWsSpec : ℕ → Option WatchState := fun n => if n = 3 then some .watchlist else none

def exRsSpec : ℕ → Option ℚ := fun n => if n = 1 ∨ n = 2 then some 5 else none

/-- C6: the recommendation heuristic's accumulated weight of every genre
equals the sum, over the browse movies carrying that genre tag, of the
specification's per-movie weight (2 when the local rating is ≥ 4, else 1
when watched or watchlisted, else 0), counted per tag; and on the
specification's example — two rated-5 Action movies and one watchlisted
Drama movie — Action's weight exceeds Drama's and the heuristic ranks
Action above Drama. -/
theorem recommendation_weights_spec :
    (∀ (movies : List FMovie) (ws : ℕ → Option WatchState) (rs : ℕ → Option ℚ)
      (g : ℕ), genreWeights movies ws rs g =
        (movies.map (fun m => m.genre_ids.count g * specMovieWeight ws rs m)).sum) ∧
    genreWeights exMoviesSpec exWsSpec exRsSpec 18 <
      genreWeights exMoviesSpec exWsSpec exRsSpec 28 ∧
    rankedGenres exMoviesSpec exWsSpec exRsSpec = [28, 18] := by
  refine ⟨fun movies ws rs g => ?_, by decide, by decide⟩
  simpa using foldl_genreReducer ws rs g movies (fun _ => 0)

/-- The guard `!watchStates[movie.id] || watchStates[movie.id] === 'watchlist'`
equals the specification's "untracked or watchlisted" predicate. -/
theorem untracked_or_watchlist_eq (o : Option WatchState) :
    (o.isNone || o == some WatchState.watchlist) =
      decide (o = none ∨ o = some WatchState.watchlist) := by
  rcases o with _ | st
  · rfl
  · cases st <;> rfl

/-- The browse set of the C7 counterexample: a single watched Action movie. -/
def cMoviesSpec : List FMovie := [⟨1, [28]⟩]

def cWsSpec : ℕ → Option WatchState := fun n => if n = 1 then some .watched else none

def cRsSpec : ℕ → Option ℚ := fun _ => none

/-- C7 counterexample: with credentials present, a positively weighted genre
and a failing catalog query, the fallback is `movies.slice(0, 8)` with no
watch-state filtering — the answered list contains a movie whose watch state
is `watched`, which the claim says the fallback excludes. -/
theorem reco_catch_fallback_counterexample :
    loadRecommendations true .failed cMoviesSpec cWsSpec cRsSpec = [⟨1, [28]⟩] ∧
    cWsSpec 1 = some WatchState.watched := by
  constructor
  · rfl
  · rfl

/-- C7 (amended): when credentials are missing or no genre has positive
accumulated weight, the heuristic falls back to the untracked-or-watchlisted
movies of the browse set (first eight); when credentials are present, some
genre has positive weight and the catalog query fails, it falls back to the
first eight browse movies without any watch-state filtering. -/
theorem reco_fallback_branches (hasCreds : Bool) (catalog : CatalogResult)
    (movies : List FMovie) (ws : ℕ → Option WatchState) (rs : ℕ → Option ℚ) :
    ((hasCreds = false ∨ ∀ g, genreWeights movies ws rs g = 0) →
      loadRecommendations hasCreds catalog movies ws rs =
        (movies.filter (fun m =>
          decide (ws m.id = none ∨ ws m.id = some WatchState.watchlist))).take 8) ∧
    ((∃ g, 0 < genreWeights movies ws rs g) →
      loadRecommendations true .failed movies ws rs = movies.take 8) := by
  have hfilter : (movies.filter (fun m =>
        (ws m.id).isNone || ws m.id == some WatchState.watchlist)) =
      (movies.filter (fun m =>
        decide (ws m.id = none ∨ ws m.id = some WatchState.watchlist))) :=
    List.filter_congr (fun m _ => untracked_or_watchlist_eq (ws m.id))
  constructor
  · rintro (rfl | hzero)
    · simp only [loadRecommendations, Bool.not_false, Bool.true_or, if_pos]
      rw [hfilter]
    · have hent : genreEntries movies ws rs = [] := by
        unfold genreEntries
        rw [List.filterMap_eq_nil_iff]
        intro g hg
        simp [hzero g]
      have hrank : rankedGenres movies ws rs = [] := by
        unfold rankedGenres
        rw [hent]
        rfl
      simp only [loadRecommendations, hrank, List.isEmpty_nil, Bool.or_true, if_pos]
      rw [hfilter]
  · rintro ⟨g, hg⟩
    have hterm : 0 < (movies.map
        (fun m => m.genre_ids.count g * specMovieWeight ws rs m)).sum := by
      have hsum := foldl_genreReducer ws rs g movies (fun _ => 0)
      rw [genreWeights] at hg
      rw [hsum] at hg
      simpa using hg
    have hmem : ∃ m ∈ movies, 0 < m.genre_ids.count g := by
      by_contra hno
      push_neg at hno
      have : (movies.map
          (fun m => m.genre_ids.count g * specMovieWeight ws rs m)).sum = 0 := by
        apply List.sum_eq_zero
        intro x hx
        obtain ⟨m, hm, rfl⟩ := List.mem_map.mp hx
        have hc := hno m hm
        have hc0 : m.genre_ids.count g = 0 := by omega
        simp [hc0]
      omega
    obtain ⟨m, hm, hcount⟩ := hmem
    have hgm : g ∈ m.genre_ids := List.count_pos_iff.mp hcount
    have hflat : g ∈ (movies.map FMovie.genre_ids).flatten :=
      List.mem_flatten.mpr ⟨m.genre_ids, List.mem_map_of_mem _ hm, hgm⟩
    have hsorted : g ∈ ((movies.map FMovie.genre_ids).flatten.dedup).insertionSort
        (· ≤ ·) :=
      (List.mem_insertionSort _).mpr (List.mem_dedup.mpr hflat)
    have hentmem : (g, genreWeights movies ws rs g) ∈ genreEntries movies ws rs := by
      unfold genreEntries
      exact List.mem_filterMap.mpr ⟨g, hsorted, by simp [hg]⟩
    have hne : genreEntries movies ws rs ≠ [] := List.ne_nil_of_mem hentmem
    have hrank : rankedGenres movies ws rs ≠ [] := by
      intro hempty
      apply hne
      unfold rankedGenres at hempty
      rw [List.map_eq_nil_iff] at hempty
      rcases List.take_eq_nil_iff.mp hempty with h2 | h2
      · exact absurd h2 (by norm_num)
      · have hlen := List.length_insertionSort heavierFirst (genreEntries movies ws rs)
        rw [h2] at hlen
        exact List.eq_nil_of_length_eq_zero hlen.symm
    have hrank' : (rankedGenres movies ws rs).isEmpty = false := by
      rcases hq : rankedGenres movies ws rs with _ | ⟨a, l⟩
      · exact absurd hq hrank
      · rfl
    simp [loadRecommendations, hrank']

/-- C7 witness: without credentials the fallback filters to
untracked-or-watchlisted movies; with credentials, a weighted genre and a
failing query it is the unfiltered first eight browse movies. -/
theorem reco_fallback_branches_witness :
    loadRecommendations false .failed cMoviesSpec cWsSpec cRsSpec =
      (cMoviesSpec.filter (fun m =>
        decide (cWsSpec m.id = none ∨ cWsSpec m.id = some WatchState.watchlist))).take 8 ∧
    loadRecommendations true .failed cMoviesSpec cWsSpec cRsSpec = cMoviesSpec.take 8 :=
  ⟨(reco_fallback_branches false .failed cMoviesSpec cWsSpec cRsSpec).1 (Or.inl rfl),
    (reco_fallback_branches true .failed cMoviesSpec cWsSpec cRsSpec).2 ⟨28, by decide⟩⟩
